import Mathlib

/-!
Shallow embedding of `src/app.py` (Calculadora-YLW): the quantity
normalizer (the form-reading loop of `index` plus `calcular_itens`), the
stacking volume estimator (`volume_para_box`) and the box selector
(`escolher_box_por_altura`).

Modelling conventions:

* Python floats are modelled as exact rationals (`ℚ`).  All quantities in
  the program are small decimal literals and the verified properties are
  arithmetic identities, not rounding behaviour.
* Python dicts are modelled as association lists in insertion order;
  `dict.get` becomes `List.find?` on the key.
* `volume_para_box` returns either `(total, altura, detalhes)` or
  `(None, None, motivo)`; this two-shaped return is modelled as
  `Except Motivo (ℚ × ℚ × List Detalhe)`.  The failure message is an
  f-string interpolating the item name, the item unit height and the box
  height; it is modelled structurally by the record `Motivo` carrying
  exactly those three data (the 2-decimal rendering is presentation).
  The per-item breakdown strings are likewise modelled by the structured
  `Detalhe` values they interpolate.
* `candidatos.sort(key=lambda t: (t[3]["Metros Cubicos"], t[0]))` followed
  by `candidatos[0]` uses Python's stable sort and takes the head; the
  head of a stable sort by a key is the first element attaining the
  minimal key, computed here by `melhorCandidato`.
* The candidate table `df_boxes` (loaded from a spreadsheet at process
  start) is passed to the selector as an explicit list parameter; of its
  columns only `Altura` and `Metros Cubicos` feed the computation, the
  rest are presentation, so a `Box` carries a name and those two fields.
-/

namespace Ylw

/-- A normalized item record, as built by `calcular_itens`
(app.py lines 100–107). -/
structure Item where
  nome : String
  qtd : ℕ
  m3 : ℚ
  empilhavel : Bool
  max_emp : ℕ
  altura : ℚ
deriving DecidableEq

/-- One candidate box row of `df_boxes`: its identifier, its height
(`Altura`) and its capacity (`Metros Cubicos`). -/
structure Box where
  nome : String
  altura : ℚ
  metrosCubicos : ℚ
deriving DecidableEq

/-- The data interpolated in the infeasibility f-string of
`volume_para_box` (app.py line 130): item name, item unit height, box
height. -/
structure Motivo where
  nome : String
  alturaItem : ℚ
  alturaBox : ℚ
deriving DecidableEq

/-- The data interpolated in the per-item breakdown strings of
`volume_para_box` (app.py lines 138–141 and 146). -/
inductive Detalhe where
  | empilhado (nome : String) (qtd : ℕ) (pilhas : ℤ) (vItem : ℚ)
      (camadas : ℤ) (alturaPilha : ℚ)
  | naoEmpilha (nome : String) (qtd : ℕ) (vItem : ℚ) (altura : ℚ)
deriving DecidableEq

/-- `camadas_por_pilha = min(int(altura_box // alt), max_emp)`
(app.py lines 127–128). -/
def camadasPorPilha (alturaBox : ℚ) (it : Item) : ℤ :=
  min ⌊alturaBox / it.altura⌋ (it.max_emp : ℤ)

/-- `pilhas = math.ceil(qtd / camadas_por_pilha)` (app.py line 132). -/
def pilhasNecessarias (alturaBox : ℚ) (it : Item) : ℤ :=
  ⌈(it.qtd : ℚ) / ((camadasPorPilha alturaBox it : ℤ) : ℚ)⌉

/-- The `for it in itens` loop of `volume_para_box` (app.py lines
120–146), with the running accumulators `total`, `max_alt_uso` and
`detalhes` passed explicitly. -/
def volumeLoop (alturaBox : ℚ) : List Item → ℚ → ℚ → List Detalhe →
    Except Motivo (ℚ × ℚ × List Detalhe)
  | [], total, maxAltUso, detalhes => .ok (total, maxAltUso, detalhes)
  | it :: resto, total, maxAltUso, detalhes =>
    if it.empilhavel then
      if camadasPorPilha alturaBox it < 1 then
        .error ⟨it.nome, it.altura, alturaBox⟩
      else
        let pilhas := pilhasNecessarias alturaBox it
        let vItem := (pilhas : ℚ) * it.m3
        let alturaPilha := ((min (camadasPorPilha alturaBox it) (it.qtd : ℤ)) : ℚ) * it.altura
        volumeLoop alturaBox resto (total + vItem) (max maxAltUso alturaPilha)
          (detalhes ++ [.empilhado it.nome it.qtd pilhas vItem
            (camadasPorPilha alturaBox it) alturaPilha])
    else
      volumeLoop alturaBox resto (total + (it.qtd : ℚ) * it.m3) (max maxAltUso it.altura)
        (detalhes ++ [.naoEmpilha it.nome it.qtd ((it.qtd : ℚ) * it.m3) it.altura])

/-- `volume_para_box(itens, altura_box, folga=0.15)` (app.py lines
110–149): run the loop from zeroed accumulators, then apply the slack
`total *= (1.0 + folga)`. -/
def volume_para_box (itens : List Item) (alturaBox : ℚ) (folga : ℚ := 3/20) :
    Except Motivo (ℚ × ℚ × List Detalhe) :=
  match volumeLoop alturaBox itens 0 0 [] with
  | .error motivo => .error motivo
  | .ok (total, maxAltUso, detalhes) => .ok (total * (1 + folga), maxAltUso, detalhes)

/-- One entry of the selector's `candidatos` list:
`(vol, alt_uso, detalhes, box)` (app.py line 170). -/
structure Cand where
  vol : ℚ
  altUso : ℚ
  detalhes : List Detalhe
  box : Box
deriving DecidableEq

/-- Strict comparison of the sort key
`(t[3]["Metros Cubicos"], t[0])` (app.py line 176). -/
def candLt (a b : Cand) : Prop :=
  a.box.metrosCubicos < b.box.metrosCubicos ∨
    (a.box.metrosCubicos = b.box.metrosCubicos ∧ a.vol < b.vol)

instance (a b : Cand) : Decidable (candLt a b) := by
  unfold candLt; infer_instance

/-- `candidatos.sort(key=...); melhor = candidatos[0]` (app.py lines
176–177): Python's sort is stable, so the head of the sorted list is the
first element attaining the minimal key. -/
def melhorCandidato : List Cand → Option Cand
  | [] => none
  | c :: resto =>
    match melhorCandidato resto with
    | none => some c
    | some m => some (if candLt m c then m else c)

/-- The fixed overall-failure reason of the selector (app.py line 173). -/
def motivoFalha : String :=
  "Nenhum box atende ao volume/altura após simular empilhamento pela altura do box."

/-- The body of the `for _, box in df_boxes.iterrows()` loop (app.py
lines 158–170): estimate at this box's height, skip on infeasibility
(`if vol is None: continue`), keep the candidate only when
`box["Metros Cubicos"] >= vol`. -/
def candidatoDe (itens : List Item) (box : Box) : Option Cand :=
  match volume_para_box itens box.altura with
  | .error _ => none
  | .ok (vol, altUso, detalhes) =>
    if box.metrosCubicos ≥ vol then some ⟨vol, altUso, detalhes, box⟩ else none

/-- `escolher_box_por_altura(itens)` (app.py lines 151–178), with the
candidate boxes passed explicitly.  Returns the chosen
`(box, volume, altura usada, detalhes)` or the fixed failure reason. -/
def escolher_box_por_altura (boxes : List Box) (itens : List Item) :
    Except String (Box × ℚ × ℚ × List Detalhe) :=
  match melhorCandidato (boxes.filterMap (candidatoDe itens)) with
  | none => .error motivoFalha
  | some melhor => .ok (melhor.box, melhor.vol, melhor.altUso, melhor.detalhes)

/-- One value of the `catalogo` dict (app.py lines 26–47).  The
`max_emp` key is present only on stackable entries; the code reads it
with `meta.get("max_emp", 1)`, modelled by `Option.getD _ 1`. -/
structure MetaCatalogo where
  m3 : ℚ
  empilhavel : Bool
  max_emp : Option ℕ
  altura : ℚ
deriving DecidableEq

/-- The `catalogo` dict (app.py lines 26–47), in its insertion order. -/
def catalogo : List (String × MetaCatalogo) := [
  ("sofa",                  ⟨5/2,    false, none,   1⟩),
  ("geladeira",             ⟨6/5,    false, none,   9/5⟩),
  ("mesa",                  ⟨9/5,    false, none,   3/4⟩),
  ("cadeira de jantar",     ⟨1/2,    true,  some 4, 1⟩),
  ("caixa pequena",         ⟨1/10,   true,  some 6, 2/5⟩),
  ("caixa media",           ⟨3/10,   true,  some 5, 1/2⟩),
  ("caixa grande",          ⟨1/2,    true,  some 4, 3/5⟩),
  ("fogao",                 ⟨3/10,   false, none,   9/10⟩),
  ("cama box",              ⟨8/5,    false, none,   3/5⟩),
  ("colchao de casal",      ⟨4/5,    true,  some 3, 1/4⟩),
  ("colchao de solteiro",   ⟨1/2,    true,  some 3, 1/4⟩),
  ("maquina de lavar",      ⟨3/10,   false, none,   1⟩),
  ("mesa de jantar",        ⟨21/25,  false, none,   3/4⟩),
  ("rack",                  ⟨11/50,  false, none,   11/20⟩),
  ("sofa 2 lugares",        ⟨59/50,  false, none,   9/10⟩),
  ("sofa 3 lugares",        ⟨117/50, false, none,   1⟩),
  ("tv",                    ⟨41/100, false, none,   7/10⟩),
  ("escrivaninha",          ⟨41/100, false, none,   3/4⟩),
  ("cadeira de escritorio", ⟨3/10,   true,  some 3, 1⟩),
  ("poltrona",              ⟨53/100, false, none,   1⟩)]

/-- Splitting a character list at spaces (runs of spaces produce empty
words, discarded by the caller). -/
def quebraEspacos : List Char → List (List Char)
  | [] => [[]]
  | c :: rest =>
    match quebraEspacos rest with
    | [] => []
    | w :: ws => if c = ' ' then [] :: w :: ws else (c :: w) :: ws

/-- `slugify` (app.py lines 15–20), specialised to the names of this
catalogue: they are made of lowercase ASCII letters, digits and single
spaces, so the accent stripping, lowering and character filtering are
the identity and the function reduces to joining the space-separated
words with underscores. -/
def slugify (s : String) : String :=
  String.intercalate "_"
    (((quebraEspacos s.data).map String.mk).filter (fun t => t != ""))

/-- One entry of the UI item list (app.py lines 50–59). -/
structure ItemUI where
  nome : String
  slug : String
  m3 : ℚ
  empilhavel : Bool
  max_emp : ℕ
  altura : ℚ
deriving DecidableEq

/-- Python's string ordering: lexicographic on code points, a proper
prefix sorting first. -/
def charListLe : List Char → List Char → Bool
  | [], _ => true
  | _ :: _, [] => false
  | a :: as, b :: bs =>
    if a.toNat < b.toNat then true
    else if b.toNat < a.toNat then false
    else charListLe as bs

/-- `itens_ui` (app.py lines 50–60): one record per catalogue entry,
sorted by name (`sorted(itens_ui, key=lambda x: x["nome"])`; the names
are distinct, so any sort by name produces the same list). -/
def itens_ui : List ItemUI :=
  List.insertionSort (fun a b => charListLe a.nome.data b.nome.data = true)
    (catalogo.map (fun p =>
      ⟨p.1, slugify p.1, p.2.m3, p.2.empilhavel, p.2.max_emp.getD 1, p.2.altura⟩))

/-- `slug_to_nome = {slugify(k): k for k in catalogo.keys()}` with its
`.get(slug)` lookup (app.py lines 91 and 96).  The comprehension's keys
are distinct for this catalogue, so first-match lookup agrees with the
dict built by the comprehension. -/
def slug_to_nome (slug : String) : Option String :=
  ((catalogo.map (fun p => (slugify p.1, p.1))).find? (fun q => q.1 == slug)).map (·.2)

/-- The `catalogo[nome]` access (app.py line 99), as a lookup. -/
def catalogoGet (nome : String) : Option MetaCatalogo :=
  (catalogo.find? (fun p => p.1 == nome)).map (·.2)

/-- The body of the `for slug, qtd in qtd_por_slug.items()` loop of
`calcular_itens` (app.py lines 93–107): drop non-positive quantities,
drop slugs that resolve to no catalogue name, build the normalized
record from the catalogue metadata.  (`catalogo[nome]` cannot fail once
`slug_to_nome` succeeded; the impossible branch yields `none`.) -/
def calcularItem (sq : String × ℤ) : Option Item :=
  if sq.2 ≤ 0 then none
  else
    match slug_to_nome sq.1 with
    | none => none
    | some nome =>
      match catalogoGet nome with
      | none => none
      | some meta =>
        some ⟨nome, sq.2.toNat, meta.m3, meta.empilhavel, meta.max_emp.getD 1, meta.altura⟩

/-- `calcular_itens(qtd_por_slug)` (app.py lines 88–108); the input dict
is modelled as an association list in its insertion order. -/
def calcular_itens (qtdPorSlug : List (String × ℤ)) : List Item :=
  qtdPorSlug.filterMap calcularItem

/-- A submitted form: field name to the integer parse of the effective
raw text.  `none` models a value on which `int(raw)` raises (non-numeric
text); a missing field and an empty value both default to `"0"`
(app.py line 193), so `formGet` yields `some 0` for an absent field. -/
abbrev Form := List (String × Option ℤ)

def formGet (form : Form) (campo : String) : Option ℤ :=
  match form.find? (fun p => p.1 == campo) with
  | some p => p.2
  | none => some 0

/-- The form-reading loop of `index` (app.py lines 190–198): one
`qty_<slug>` field per UI item, parse failures become `0` (the bare
`except`), negatives are clamped by `max(0, qtd)`. -/
def lerQuantidades (form : Form) : List (String × ℤ) :=
  itens_ui.map (fun item =>
    (item.slug, max 0 ((formGet form ("qty_" ++ item.slug)).getD 0)))

/-- The normalisation pipeline of one POST request (app.py lines
190–200): read the quantities, then `calcular_itens`. -/
def processarRequisicao (form : Form) : List Item :=
  calcular_itens (lerQuantidades form)

/-! ### Specification-side per-item formulas (spec §4.2)

These restate the per-item arithmetic of the spec, to be compared with
the accumulators of `volumeLoop`. -/

/-- Per-item volume contribution (spec §4.2): `stacks × unit volume` for
a stackable item, `quantity × unit volume` otherwise. -/
def volumeContribuicao (alturaBox : ℚ) (it : Item) : ℚ :=
  if it.empilhavel then (pilhasNecessarias alturaBox it : ℚ) * it.m3
  else (it.qtd : ℚ) * it.m3

/-- Per-item height-usage contribution (spec §4.2):
`min(layers-per-stack, quantity) × unit height` for a stackable item,
the bare unit height otherwise. -/
def alturaContribuicao (alturaBox : ℚ) (it : Item) : ℚ :=
  if it.empilhavel
  then ((min (camadasPorPilha alturaBox it) (it.qtd : ℤ)) : ℚ) * it.altura
  else it.altura

/-- The breakdown entry the loop emits for one item. -/
def detalheDe (alturaBox : ℚ) (it : Item) : Detalhe :=
  if it.empilhavel then
    .empilhado it.nome it.qtd (pilhasNecessarias alturaBox it)
      (volumeContribuicao alturaBox it) (camadasPorPilha alturaBox it)
      (alturaContribuicao alturaBox it)
  else .naoEmpilha it.nome it.qtd (volumeContribuicao alturaBox it) it.altura

/-- The first stackable item whose capped layer count is below 1, with
the failure data the loop reports for it. -/
def primeiraInviabilidade (alturaBox : ℚ) : List Item → Option Motivo
  | [] => none
  | it :: resto =>
    if it.empilhavel ∧ camadasPorPilha alturaBox it < 1 then
      some ⟨it.nome, it.altura, alturaBox⟩
    else primeiraInviabilidade alturaBox resto

/-- Feasibility of an item list at a box height (spec §4.2): every
stackable item fits at least one layer. -/
def Viavel (alturaBox : ℚ) (itens : List Item) : Prop :=
  ∀ it ∈ itens, it.empilhavel = true → 1 ≤ camadasPorPilha alturaBox it

/-! ### The estimator in closed form -/

theorem volumeContribuicao_emp {it : Item} (h : it.empilhavel = true) (alturaBox : ℚ) :
    volumeContribuicao alturaBox it = (pilhasNecessarias alturaBox it : ℚ) * it.m3 := by
  simp [volumeContribuicao, h]

theorem volumeContribuicao_nao {it : Item} (h : it.empilhavel = false) (alturaBox : ℚ) :
    volumeContribuicao alturaBox it = (it.qtd : ℚ) * it.m3 := by
  simp [volumeContribuicao, h]

theorem alturaContribuicao_emp {it : Item} (h : it.empilhavel = true) (alturaBox : ℚ) :
    alturaContribuicao alturaBox it =
      ((min (camadasPorPilha alturaBox it) (it.qtd : ℤ)) : ℚ) * it.altura := by
  simp [alturaContribuicao, h]

theorem alturaContribuicao_nao {it : Item} (h : it.empilhavel = false) (alturaBox : ℚ) :
    alturaContribuicao alturaBox it = it.altura := by
  simp [alturaContribuicao, h]

theorem detalheDe_emp {it : Item} (h : it.empilhavel = true) (alturaBox : ℚ) :
    detalheDe alturaBox it =
      .empilhado it.nome it.qtd (pilhasNecessarias alturaBox it)
        ((pilhasNecessarias alturaBox it : ℚ) * it.m3) (camadasPorPilha alturaBox it)
        (((min (camadasPorPilha alturaBox it) (it.qtd : ℤ)) : ℚ) * it.altura) := by
  simp [detalheDe, volumeContribuicao, alturaContribuicao, h]

theorem detalheDe_nao {it : Item} (h : it.empilhavel = false) (alturaBox : ℚ) :
    detalheDe alturaBox it =
      .naoEmpilha it.nome it.qtd ((it.qtd : ℚ) * it.m3) it.altura := by
  simp [detalheDe, volumeContribuicao, h]

theorem foldl_max_init (l : List ℚ) : ∀ a b : ℚ,
    l.foldl max (max a b) = max a (l.foldl max b) := by
  induction l with
  | nil => intro a b; rfl
  | cons x t ih =>
    intro a b
    show t.foldl max (max (max a b) x) = max a (t.foldl max (max b x))
    rw [max_assoc, ih]

/-- Closed form of the estimator loop: either the first infeasible item's
failure, or the accumulators extended by the sums, maxima and breakdown
entries of the item list. -/
theorem volumeLoop_eq (alturaBox : ℚ) (itens : List Item) :
    ∀ (t a : ℚ) (d : List Detalhe),
    volumeLoop alturaBox itens t a d =
      match primeiraInviabilidade alturaBox itens with
      | some motivo => .error motivo
      | none => .ok (t + (itens.map (volumeContribuicao alturaBox)).sum,
          (itens.map (alturaContribuicao alturaBox)).foldl max a,
          d ++ itens.map (detalheDe alturaBox)) := by
  induction itens with
  | nil => intro t a d; simp [volumeLoop, primeiraInviabilidade]
  | cons it resto ih =>
    intro t a d
    by_cases hE : it.empilhavel
    · by_cases hC : camadasPorPilha alturaBox it < 1
      · simp [volumeLoop, primeiraInviabilidade, hE, hC]
      · rw [show volumeLoop alturaBox (it :: resto) t a d =
            volumeLoop alturaBox resto
              (t + (pilhasNecessarias alturaBox it : ℚ) * it.m3)
              (max a (((min (camadasPorPilha alturaBox it) (it.qtd : ℤ)) : ℚ) * it.altura))
              (d ++ [.empilhado it.nome it.qtd (pilhasNecessarias alturaBox it)
                ((pilhasNecessarias alturaBox it : ℚ) * it.m3)
                (camadasPorPilha alturaBox it)
                (((min (camadasPorPilha alturaBox it) (it.qtd : ℤ)) : ℚ) * it.altura)]) from by
              simp [volumeLoop, hE, hC], ih]
        have hP : primeiraInviabilidade alturaBox (it :: resto) =
            primeiraInviabilidade alturaBox resto := by
          simp [primeiraInviabilidade, hE, hC]
        rw [hP]
        cases hQ : primeiraInviabilidade alturaBox resto with
        | some motivo => rfl
        | none =>
          simp only [List.map_cons, List.sum_cons, List.foldl_cons,
            volumeContribuicao_emp hE, alturaContribuicao_emp hE, detalheDe_emp hE,
            Except.ok.injEq, Prod.mk.injEq]
          exact ⟨by ring, trivial, by simp⟩
    · rw [show volumeLoop alturaBox (it :: resto) t a d =
          volumeLoop alturaBox resto (t + (it.qtd : ℚ) * it.m3) (max a it.altura)
            (d ++ [.naoEmpilha it.nome it.qtd ((it.qtd : ℚ) * it.m3) it.altura]) from by
            simp [volumeLoop, hE], ih]
      have hP : primeiraInviabilidade alturaBox (it :: resto) =
          primeiraInviabilidade alturaBox resto := by
        simp [primeiraInviabilidade, hE]
      rw [hP]
      cases hQ : primeiraInviabilidade alturaBox resto with
      | some motivo => rfl
      | none =>
        have hE' : it.empilhavel = false := by simpa using hE
        simp only [List.map_cons, List.sum_cons, List.foldl_cons,
          volumeContribuicao_nao hE', alturaContribuicao_nao hE', detalheDe_nao hE',
          Except.ok.injEq, Prod.mk.injEq]
        exact ⟨by ring, trivial, by simp⟩

/-- Closed form of `volume_para_box`. -/
theorem volume_para_box_eq (itens : List Item) (alturaBox folga : ℚ) :
    volume_para_box itens alturaBox folga =
      match primeiraInviabilidade alturaBox itens with
      | some motivo => .error motivo
      | none => .ok ((itens.map (volumeContribuicao alturaBox)).sum * (1 + folga),
          (itens.map (alturaContribuicao alturaBox)).foldl max 0,
          itens.map (detalheDe alturaBox)) := by
  unfold volume_para_box
  rw [volumeLoop_eq]
  cases hQ : primeiraInviabilidade alturaBox itens with
  | some motivo => rfl
  | none => simp

theorem primeiraInviabilidade_eq_none_iff (alturaBox : ℚ) (itens : List Item) :
    primeiraInviabilidade alturaBox itens = none ↔ Viavel alturaBox itens := by
  induction itens with
  | nil => simp [primeiraInviabilidade, Viavel]
  | cons it resto ih =>
    by_cases h : it.empilhavel ∧ camadasPorPilha alturaBox it < 1
    · simp only [primeiraInviabilidade, if_pos h]
      constructor
      · intro hfalse; exact absurd hfalse (by simp)
      · intro hV
        exact absurd (hV it (by simp) h.1) (by omega)
    · simp only [primeiraInviabilidade, if_neg h, ih, Viavel]
      constructor
      · intro hV it' hit' hE'
        rcases List.mem_cons.mp hit' with rfl | hmem
        · rcases not_and_or.mp h with hbad | hok
          · exact absurd hE' (by simpa using hbad)
          · omega
        · exact hV it' hmem hE'
      · intro hV it' hit' hE'
        exact hV it' (List.mem_cons_of_mem _ hit') hE'

/-! ### Order facts for the selector's sort key -/

theorem candLt_irrefl (a : Cand) : ¬ candLt a a := by
  unfold candLt
  push_neg
  exact ⟨le_refl _, fun _ => le_refl _⟩

theorem candLt_asymm {a b : Cand} (h : candLt a b) : ¬ candLt b a := by
  unfold candLt at h ⊢
  push_neg
  rcases h with h | ⟨he, hv⟩
  · exact ⟨le_of_lt h, fun hc => absurd hc (ne_of_gt h)⟩
  · exact ⟨le_of_eq he, fun _ => le_of_lt hv⟩

/-- If `x` improves on `c` but `m` does not, then `x` improves on `m`. -/
theorem candLt_of_lt_of_not_lt {x c m : Cand} (h1 : candLt x c) (h2 : ¬ candLt m c) :
    candLt x m := by
  unfold candLt at h1 h2 ⊢
  push_neg at h2
  obtain ⟨hcap, hvol⟩ := h2
  rcases h1 with h | ⟨he, hv⟩
  · exact Or.inl (lt_of_lt_of_le h hcap)
  · rcases lt_or_eq_of_le hcap with h' | h'
    · exact Or.inl (by rw [he]; exact h')
    · exact Or.inr ⟨by rw [he, h'], lt_of_lt_of_le hv (hvol h'.symm)⟩

/-- Characterization of `melhorCandidato`: it returns the first element
attaining the minimal sort key — no element beats it, and every element
before it is strictly beaten by it. -/
theorem melhorCandidato_spec :
    ∀ (l : List Cand) (m : Cand), melhorCandidato l = some m →
    ∃ l1 l2, l = l1 ++ m :: l2 ∧ (∀ x ∈ l1, candLt m x) ∧ (∀ x ∈ l, ¬ candLt x m) := by
  intro l
  induction l with
  | nil => intro m h; exact absurd h (by simp [melhorCandidato])
  | cons c resto ih =>
    intro m h
    unfold melhorCandidato at h
    cases hr : melhorCandidato resto with
    | none =>
      rw [hr] at h
      have hm : m = c := by simpa using h.symm
      subst hm
      have hresto : resto = [] := by
        cases resto with
        | nil => rfl
        | cons x t => exact absurd hr (by
            unfold melhorCandidato
            cases melhorCandidato t <;> simp)
      subst hresto
      exact ⟨[], [], rfl, by simp, by simp [candLt_irrefl]⟩
    | some m' =>
      rw [hr] at h
      obtain ⟨l1, l2, hsplit, hbefore, hmin⟩ := ih m' hr
      by_cases hlt : candLt m' c
      · have hm : m = m' := by simpa [hlt] using h.symm
        subst hm
        refine ⟨c :: l1, l2, by rw [hsplit]; rfl, ?_, ?_⟩
        · intro x hx
          rcases List.mem_cons.mp hx with rfl | hx'
          · exact hlt
          · exact hbefore x hx'
        · intro x hx
          rcases List.mem_cons.mp hx with rfl | hx'
          · exact candLt_asymm hlt
          · exact hmin x hx'
      · have hm : m = c := by simpa [hlt] using h.symm
        subst hm
        refine ⟨[], resto, rfl, by simp, ?_⟩
        intro x hx
        rcases List.mem_cons.mp hx with rfl | hx'
        · exact candLt_irrefl x
        · intro hxc
          exact hmin x hx' (candLt_of_lt_of_not_lt hxc hlt)

theorem melhorCandidato_eq_none_iff (l : List Cand) :
    melhorCandidato l = none ↔ l = [] := by
  cases l with
  | nil => simp [melhorCandidato]
  | cons c resto =>
    unfold melhorCandidato
    cases melhorCandidato resto <;> simp

/-- Decomposing a `filterMap` image around one of its elements. -/
theorem filterMap_eq_append_cons {α β : Type} (f : α → Option β) :
    ∀ (l : List α) (ys1 : List β) (y : β) (ys2 : List β),
      l.filterMap f = ys1 ++ y :: ys2 →
      ∃ l1 x l2, l = l1 ++ x :: l2 ∧ f x = some y ∧ l1.filterMap f = ys1 := by
  intro l
  induction l with
  | nil => intro ys1 y ys2 h; exact absurd h (by simp)
  | cons a t ih =>
    intro ys1 y ys2 h
    cases hfa : f a with
    | none =>
      rw [List.filterMap_cons_none hfa] at h
      obtain ⟨l1, x, l2, hsplit, hx, hmap⟩ := ih ys1 y ys2 h
      exact ⟨a :: l1, x, l2, by rw [hsplit]; rfl, hx,
        by rw [List.filterMap_cons_none hfa]; exact hmap⟩
    | some b =>
      rw [List.filterMap_cons_some hfa] at h
      cases ys1 with
      | nil =>
        simp only [List.nil_append, List.cons.injEq] at h
        exact ⟨[], a, t, rfl, by rw [hfa, h.1], by simp⟩
      | cons y1 ys1' =>
        simp only [List.cons_append, List.cons.injEq] at h
        obtain ⟨l1, x, l2, hsplit, hx, hmap⟩ := ih ys1' y ys2 h.2
        exact ⟨a :: l1, x, l2, by rw [hsplit]; rfl, hx,
          by rw [List.filterMap_cons_some hfa, hmap, h.1]⟩

/-! ### Eligibility and the selector's behaviour -/

/-- Eligibility (spec §4.3): the estimator succeeds at the box's height
with total volume `v`, and the box's capacity covers `v`.  The slack
factor is the default `0.15`, as in the selector's call. -/
def Elegivel (itens : List Item) (box : Box) (v : ℚ) : Prop :=
  (∃ a d, volume_para_box itens box.altura = .ok (v, a, d)) ∧ v ≤ box.metrosCubicos

theorem candidatoDe_eq_some {itens : List Item} {box : Box} {c : Cand}
    (h : candidatoDe itens box = some c) :
    volume_para_box itens box.altura = .ok (c.vol, c.altUso, c.detalhes) ∧
      c.vol ≤ box.metrosCubicos ∧ c.box = box := by
  unfold candidatoDe at h
  cases hv : volume_para_box itens box.altura with
  | error m => rw [hv] at h; exact absurd h (by simp)
  | ok r =>
    obtain ⟨vol, altUso, detalhes⟩ := r
    rw [hv] at h
    by_cases hc : box.metrosCubicos ≥ vol
    · simp only [ge_iff_le, hc, if_true] at h
      cases h
      exact ⟨rfl, hc, rfl⟩
    · simp [hc] at h

theorem candidatoDe_of_elegivel {itens : List Item} {box : Box} {v : ℚ}
    (h : Elegivel itens box v) :
    ∃ a d, candidatoDe itens box = some ⟨v, a, d, box⟩ := by
  obtain ⟨⟨a, d, hok⟩, hcap⟩ := h
  exact ⟨a, d, by unfold candidatoDe; rw [hok]; simp [hcap]⟩

theorem candidatoDe_eq_none_iff {itens : List Item} {box : Box} :
    candidatoDe itens box = none ↔ ∀ v, ¬ Elegivel itens box v := by
  constructor
  · intro h v hel
    obtain ⟨a, d, hc⟩ := candidatoDe_of_elegivel hel
    rw [h] at hc
    exact absurd hc (by simp)
  · intro h
    cases hc : candidatoDe itens box with
    | none => rfl
    | some c =>
      obtain ⟨hok, hcap, hbox⟩ := candidatoDe_eq_some hc
      exact absurd ⟨⟨c.altUso, c.detalhes, hbox ▸ hok⟩, hbox ▸ hcap⟩ (h c.vol)

/-- Full behaviour of the selector when some candidate is eligible: it
returns an eligible box of minimal capacity, minimal computed volume
among those of equal capacity, and strictly beating (on the sort key)
every eligible box listed before it. -/
theorem escolher_spec (boxes : List Box) (itens : List Item)
    (h : ∃ box v, box ∈ boxes ∧ Elegivel itens box v) :
    ∃ box vol altUso detalhes l1 l2,
      escolher_box_por_altura boxes itens = .ok (box, vol, altUso, detalhes) ∧
      boxes = l1 ++ box :: l2 ∧
      Elegivel itens box vol ∧
      volume_para_box itens box.altura = .ok (vol, altUso, detalhes) ∧
      (∀ b ∈ boxes, ∀ v, Elegivel itens b v → box.metrosCubicos ≤ b.metrosCubicos) ∧
      (∀ b ∈ boxes, ∀ v, Elegivel itens b v → b.metrosCubicos = box.metrosCubicos →
        vol ≤ v) ∧
      (∀ b ∈ l1, ∀ v, Elegivel itens b v →
        box.metrosCubicos < b.metrosCubicos ∨
          (box.metrosCubicos = b.metrosCubicos ∧ vol < v)) := by
  obtain ⟨bx, v, hmem, hel⟩ := h
  obtain ⟨a0, d0, hc0⟩ := candidatoDe_of_elegivel hel
  have hne : boxes.filterMap (candidatoDe itens) ≠ [] := by
    intro hnil
    have : candidatoDe itens bx = none := by
      have := List.filterMap_eq_nil_iff.mp hnil
      exact this bx hmem
    rw [hc0] at this
    exact absurd this (by simp)
  cases hm : melhorCandidato (boxes.filterMap (candidatoDe itens)) with
  | none => exact absurd ((melhorCandidato_eq_none_iff _).mp hm) hne
  | some m =>
    obtain ⟨c1, c2, hsplit, hbefore, hmin⟩ := melhorCandidato_spec _ m hm
    obtain ⟨l1, x, l2, hboxes, hx, hmap⟩ := filterMap_eq_append_cons _ _ _ _ _ hsplit
    obtain ⟨hok, hcap, hbox⟩ := candidatoDe_eq_some hx
    refine ⟨x, m.vol, m.altUso, m.detalhes, l1, l2, ?_, hboxes,
      ⟨⟨m.altUso, m.detalhes, hbox ▸ hok⟩, hbox ▸ hcap⟩, hbox ▸ hok, ?_, ?_, ?_⟩
    · unfold escolher_box_por_altura
      rw [hm]
      show Except.ok (m.box, m.vol, m.altUso, m.detalhes) =
        Except.ok (x, m.vol, m.altUso, m.detalhes)
      rw [hbox]
    · intro b hb v' hel'
      obtain ⟨a', d', hc'⟩ := candidatoDe_of_elegivel hel'
      have hin : (⟨v', a', d', b⟩ : Cand) ∈ boxes.filterMap (candidatoDe itens) :=
        List.mem_filterMap.mpr ⟨b, hb, hc'⟩
      have := hmin _ hin
      unfold candLt at this
      push_neg at this
      exact hbox ▸ this.1
    · intro b hb v' hel' hcapeq
      obtain ⟨a', d', hc'⟩ := candidatoDe_of_elegivel hel'
      have hin : (⟨v', a', d', b⟩ : Cand) ∈ boxes.filterMap (candidatoDe itens) :=
        List.mem_filterMap.mpr ⟨b, hb, hc'⟩
      have := hmin _ hin
      unfold candLt at this
      push_neg at this
      exact this.2 (by rw [hcapeq, hbox])
    · intro b hb v' hel'
      obtain ⟨a', d', hc'⟩ := candidatoDe_of_elegivel hel'
      have hin : (⟨v', a', d', b⟩ : Cand) ∈ l1.filterMap (candidatoDe itens) :=
        List.mem_filterMap.mpr ⟨b, hb, hc'⟩
      rw [hmap] at hin
      have := hbefore _ hin
      unfold candLt at this
      rcases this with h' | ⟨he, hv⟩
      · exact Or.inl (hbox ▸ h')
      · exact Or.inr ⟨hbox ▸ he, hv⟩

/-! ### The normalizer in closed form -/

/-- The record `calcular_itens` builds for the UI item `it` at clamped
quantity `q`. -/
def itemDe (it : ItemUI) (q : ℤ) : Item :=
  ⟨it.nome, q.toNat, it.m3, it.empilhavel, it.max_emp, it.altura⟩

/-- Consistency of one UI record with the catalogue: its slug resolves
back to its name, and the catalogue metadata agrees with the fields the
UI record copied. -/
def uiOk (it : ItemUI) : Bool :=
  decide (slug_to_nome it.slug = some it.nome) &&
    match catalogoGet it.nome with
    | none => false
    | some meta => decide (meta.m3 = it.m3) && decide (meta.empilhavel = it.empilhavel) &&
        decide (meta.max_emp.getD 1 = it.max_emp) && decide (meta.altura = it.altura)

theorem itens_ui_all_ok : itens_ui.all uiOk = true := by with_unfolding_all rfl

theorem itens_ui_ok : ∀ it ∈ itens_ui, uiOk it = true := by
  have h := itens_ui_all_ok
  rw [List.all_eq_true] at h
  exact h

theorem itens_ui_nomes_nodup : (itens_ui.map (fun it => it.nome)).Nodup := by
  with_unfolding_all decide

theorem calcularItem_eq (it : ItemUI) (hit : uiOk it = true) (q : ℤ) :
    calcularItem (it.slug, q) = if q ≤ 0 then none else some (itemDe it q) := by
  simp only [uiOk, Bool.and_eq_true, decide_eq_true_eq] at hit
  obtain ⟨hs, hm⟩ := hit
  cases hc : catalogoGet it.nome with
  | none => rw [hc] at hm; exact absurd hm (by simp)
  | some meta =>
    rw [hc] at hm
    simp only [Bool.and_eq_true, decide_eq_true_eq] at hm
    obtain ⟨⟨⟨h1, h2⟩, h3⟩, h4⟩ := hm
    unfold calcularItem
    simp only [hs, hc]
    by_cases hq : q ≤ 0
    · simp [hq]
    · simp [hq, itemDe, h1, h2, h3, h4]

/-- Closed form of the whole normalisation pipeline: one filtered pass
over `itens_ui`, in its order. -/
theorem processarRequisicao_eq (form : Form) :
    processarRequisicao form = itens_ui.filterMap (fun it =>
      if max 0 ((formGet form ("qty_" ++ it.slug)).getD 0) ≤ 0 then none
      else some (itemDe it (max 0 ((formGet form ("qty_" ++ it.slug)).getD 0)))) := by
  unfold processarRequisicao calcular_itens lerQuantidades
  rw [List.filterMap_map]
  exact List.filterMap_congr (fun it hit =>
    calcularItem_eq it (itens_ui_ok it hit) _)

/-- Mapping a `filterMap` image stays a sublist of the mapped source
when the partial function preserves the mapped component. -/
theorem map_filterMap_sublist {α β γ : Type} (f : α → Option β) (g : β → γ) (g' : α → γ)
    (h : ∀ a b, f a = some b → g b = g' a) :
    ∀ l : List α, ((l.filterMap f).map g).Sublist (l.map g') := by
  intro l
  induction l with
  | nil => simp
  | cons a t ih =>
    cases hfa : f a with
    | none =>
      rw [List.filterMap_cons_none hfa, List.map_cons]
      exact ih.cons _
    | some b =>
      rw [List.filterMap_cons_some hfa, List.map_cons, List.map_cons, h a b hfa]
      exact ih.cons₂ _

/-! ### Claim theorems -/

/-- C2: for a stackable item (positive quantity, positive unit height,
max stack count at least 1) and any container height, the estimator uses
`layers = min(floor(height/unitHeight), maxStack)`; if that is below 1
it fails with the item's name, unit height and the container height;
otherwise the item contributes `ceil(qtd/layers) × unit volume` to the
total (before slack, hence `×(1+folga)` against the remaining items'
total) and `min(layers, qtd) × unit height` to the peak height. -/
theorem estimador_item_empilhavel (it : Item) (resto : List Item) (alturaBox folga : ℚ)
    (hE : it.empilhavel = true) (_hQ : 0 < it.qtd) (_hA : 0 < it.altura)
    (_hM : 1 ≤ it.max_emp) :
    (camadasPorPilha alturaBox it = min ⌊alturaBox / it.altura⌋ (it.max_emp : ℤ)) ∧
    (camadasPorPilha alturaBox it < 1 →
      volume_para_box (it :: resto) alturaBox folga =
        .error ⟨it.nome, it.altura, alturaBox⟩) ∧
    (1 ≤ camadasPorPilha alturaBox it →
      ∀ T A D, volume_para_box resto alturaBox folga = .ok (T, A, D) →
        volume_para_box (it :: resto) alturaBox folga =
          .ok ((⌈(it.qtd : ℚ) / ((camadasPorPilha alturaBox it : ℤ) : ℚ)⌉ : ℚ) * it.m3 *
                (1 + folga) + T,
            max (((min (camadasPorPilha alturaBox it) (it.qtd : ℤ)) : ℚ) * it.altura) A,
            detalheDe alturaBox it :: D)) := by
  refine ⟨rfl, ?_, ?_⟩
  · intro hC
    rw [volume_para_box_eq]
    have hP : primeiraInviabilidade alturaBox (it :: resto) =
        some ⟨it.nome, it.altura, alturaBox⟩ := by
      simp [primeiraInviabilidade, hE, hC]
    rw [hP]
  · intro hC T A D hrest
    have hC' : ¬ camadasPorPilha alturaBox it < 1 := not_lt.mpr hC
    rw [volume_para_box_eq] at hrest ⊢
    have hPresto : primeiraInviabilidade alturaBox resto = none := by
      cases hq : primeiraInviabilidade alturaBox resto with
      | none => rfl
      | some mo => rw [hq] at hrest; exact absurd hrest (by simp)
    rw [hPresto] at hrest
    have hPcons : primeiraInviabilidade alturaBox (it :: resto) = none := by
      simp [primeiraInviabilidade, hE, hC', hPresto]
    rw [hPcons]
    simp only [Except.ok.injEq, Prod.mk.injEq] at hrest
    obtain ⟨hT, hA2, hD⟩ := hrest
    subst hT hA2 hD
    simp only [List.map_cons, List.sum_cons, List.foldl_cons,
      volumeContribuicao_emp hE, alturaContribuicao_emp hE, detalheDe_emp hE,
      Except.ok.injEq, Prod.mk.injEq]
    refine ⟨?_, ?_, trivial⟩
    · unfold pilhasNecessarias
      ring
    · rw [max_comm (0 : ℚ), foldl_max_init]

/-- C3: a non-stackable item contributes `qtd × unit volume` to the
volume — a formula not mentioning the container height, and equal at any
two heights — and its bare unit height to the peak; and for any item
list the returned peak height is the running maximum (from 0) of all
per-item height contributions, not their sum. -/
theorem estimador_item_nao_empilhavel (it : Item) (resto itens : List Item)
    (alturaBox alturaBox' folga : ℚ) (hE : it.empilhavel = false) :
    (∀ T A D, volume_para_box resto alturaBox folga = .ok (T, A, D) →
      volume_para_box (it :: resto) alturaBox folga =
        .ok ((it.qtd : ℚ) * it.m3 * (1 + folga) + T, max it.altura A,
          .naoEmpilha it.nome it.qtd ((it.qtd : ℚ) * it.m3) it.altura :: D)) ∧
    (volumeContribuicao alturaBox it = (it.qtd : ℚ) * it.m3 ∧
      volumeContribuicao alturaBox' it = (it.qtd : ℚ) * it.m3) ∧
    (alturaContribuicao alturaBox it = it.altura) ∧
    (∀ T A D, volume_para_box itens alturaBox folga = .ok (T, A, D) →
      A = (itens.map (alturaContribuicao alturaBox)).foldl max 0) := by
  refine ⟨?_, ⟨volumeContribuicao_nao hE alturaBox, volumeContribuicao_nao hE alturaBox'⟩,
    alturaContribuicao_nao hE alturaBox, ?_⟩
  · intro T A D hrest
    rw [volume_para_box_eq] at hrest ⊢
    have hPresto : primeiraInviabilidade alturaBox resto = none := by
      cases hq : primeiraInviabilidade alturaBox resto with
      | none => rfl
      | some mo => rw [hq] at hrest; exact absurd hrest (by simp)
    rw [hPresto] at hrest
    have hPcons : primeiraInviabilidade alturaBox (it :: resto) = none := by
      simp [primeiraInviabilidade, hE, hPresto]
    rw [hPcons]
    simp only [Except.ok.injEq, Prod.mk.injEq] at hrest
    obtain ⟨hT, hA2, hD⟩ := hrest
    subst hT hA2 hD
    simp only [List.map_cons, List.sum_cons, List.foldl_cons,
      volumeContribuicao_nao hE, alturaContribuicao_nao hE, detalheDe_nao hE,
      Except.ok.injEq, Prod.mk.injEq]
    refine ⟨by ring, ?_, trivial⟩
    rw [max_comm (0 : ℚ), foldl_max_init]
  · intro T A D h
    rw [volume_para_box_eq] at h
    cases hq : primeiraInviabilidade alturaBox itens with
    | some mo => rw [hq] at h; exact absurd h (by simp)
    | none =>
      rw [hq] at h
      simp only [Except.ok.injEq, Prod.mk.injEq] at h
      exact h.2.1.symm

/-- C6: under feasibility the computed total is exactly the sum of the
per-item contributions multiplied by `1 + folga` — linear in the slack
multiplier — and the default slack factor is `0.15`. -/
theorem estimador_total_linear_na_folga (itens : List Item) (alturaBox folga : ℚ)
    (h : Viavel alturaBox itens) :
    (∃ A D, volume_para_box itens alturaBox folga =
        .ok ((itens.map (volumeContribuicao alturaBox)).sum * (1 + folga), A, D)) ∧
    (∃ A D, volume_para_box itens alturaBox =
        .ok ((itens.map (volumeContribuicao alturaBox)).sum * (1 + 3/20), A, D)) := by
  have hP : primeiraInviabilidade alturaBox itens = none :=
    (primeiraInviabilidade_eq_none_iff alturaBox itens).mpr h
  constructor
  · refine ⟨(itens.map (alturaContribuicao alturaBox)).foldl max 0,
      itens.map (detalheDe alturaBox), ?_⟩
    rw [volume_para_box_eq, hP]
  · refine ⟨(itens.map (alturaContribuicao alturaBox)).foldl max 0,
      itens.map (detalheDe alturaBox), ?_⟩
    rw [volume_para_box_eq, hP]

/-- C10: with no stackable item the estimator succeeds at every
container height and slack — the container height is never checked
against a non-stackable item's height, which enters only the returned
peak (the running maximum of the unit heights). -/
theorem estimador_sem_empilhaveis (itens : List Item) (alturaBox folga : ℚ)
    (h : ∀ it ∈ itens, it.empilhavel = false) :
    volume_para_box itens alturaBox folga =
      .ok ((itens.map (fun it => (it.qtd : ℚ) * it.m3)).sum * (1 + folga),
        (itens.map (fun it => it.altura)).foldl max 0,
        itens.map (fun it =>
          .naoEmpilha it.nome it.qtd ((it.qtd : ℚ) * it.m3) it.altura)) := by
  have hV : Viavel alturaBox itens := by
    intro it hit hE
    exact absurd (h it hit) (by simp [hE])
  have hP : primeiraInviabilidade alturaBox itens = none :=
    (primeiraInviabilidade_eq_none_iff alturaBox itens).mpr hV
  rw [volume_para_box_eq, hP]
  have h1 : itens.map (volumeContribuicao alturaBox) =
      itens.map (fun it => (it.qtd : ℚ) * it.m3) :=
    List.map_congr_left (fun it hit => volumeContribuicao_nao (h it hit) alturaBox)
  have h2 : itens.map (alturaContribuicao alturaBox) =
      itens.map (fun it => it.altura) :=
    List.map_congr_left (fun it hit => alturaContribuicao_nao (h it hit) alturaBox)
  have h3 : itens.map (detalheDe alturaBox) =
      itens.map (fun it =>
        Detalhe.naoEmpilha it.nome it.qtd ((it.qtd : ℚ) * it.m3) it.altura) :=
    List.map_congr_left (fun it hit => detalheDe_nao (h it hit) alturaBox)
  rw [h1, h2, h3]

/-- C1: whenever some candidate is eligible, the selector returns an
eligible candidate of minimum capacity; among equal capacities it has
minimum computed total volume; and it strictly beats, on the sort key,
every eligible candidate enumerated before it — any full tie goes to
the earliest candidate in the provider's order. -/
theorem selecao_minimo_capacidade_volume_ordem (boxes : List Box) (itens : List Item)
    (h : ∃ box v, box ∈ boxes ∧ Elegivel itens box v) :
    ∃ box vol altUso detalhes l1 l2,
      escolher_box_por_altura boxes itens = .ok (box, vol, altUso, detalhes) ∧
      boxes = l1 ++ box :: l2 ∧
      Elegivel itens box vol ∧
      (∀ b ∈ boxes, ∀ v, Elegivel itens b v → box.metrosCubicos ≤ b.metrosCubicos) ∧
      (∀ b ∈ boxes, ∀ v, Elegivel itens b v → b.metrosCubicos = box.metrosCubicos →
        vol ≤ v) ∧
      (∀ b ∈ l1, ∀ v, Elegivel itens b v →
        box.metrosCubicos < b.metrosCubicos ∨
          (box.metrosCubicos = b.metrosCubicos ∧ vol < v)) := by
  obtain ⟨box, vol, altUso, detalhes, l1, l2, h1, h2, h3, _h4, h5, h6, h7⟩ :=
    escolher_spec boxes itens h
  exact ⟨box, vol, altUso, detalhes, l1, l2, h1, h2, h3, h5, h6, h7⟩

/-- C4: whenever the selector returns a chosen box, the returned volume
is exactly the estimator's total (slack included) at that box's height,
and the box's stated capacity covers it. -/
theorem selecao_capacidade_cobre_volume (boxes : List Box) (itens : List Item)
    (box : Box) (vol altUso : ℚ) (detalhes : List Detalhe)
    (h : escolher_box_por_altura boxes itens = .ok (box, vol, altUso, detalhes)) :
    volume_para_box itens box.altura = .ok (vol, altUso, detalhes) ∧
      vol ≤ box.metrosCubicos := by
  unfold escolher_box_por_altura at h
  cases hm : melhorCandidato (boxes.filterMap (candidatoDe itens)) with
  | none => rw [hm] at h; exact absurd h (by simp)
  | some m =>
    rw [hm] at h
    have h' : Except.ok (ε := String) (m.box, m.vol, m.altUso, m.detalhes) =
        .ok (box, vol, altUso, detalhes) := h
    simp only [Except.ok.injEq, Prod.mk.injEq] at h'
    obtain ⟨hb, hv, ha, hd⟩ := h'
    obtain ⟨l1, l2, hsplit, _, _⟩ := melhorCandidato_spec _ m hm
    have hmem : m ∈ boxes.filterMap (candidatoDe itens) := by
      rw [hsplit]; exact List.mem_append_right _ (List.mem_cons_self _ _)
    obtain ⟨b, _hb2, hcd⟩ := List.mem_filterMap.mp hmem
    obtain ⟨hok, hcap, hbox⟩ := candidatoDe_eq_some hcd
    subst hb hv ha hd
    rw [hbox]
    exact ⟨hok, hcap⟩

/-- C5: a candidate on which the estimator reports infeasibility is
merely skipped — deleting it from the candidate list does not change the
selector's result — and the selector answers with the fixed failure
reason (as a value, the model being a total function) exactly when no
candidate is both feasible and of sufficient capacity. -/
theorem selecao_pula_inviaveis_falha_fixa (itens : List Item)
    (boxes l1 l2 : List Box) (b : Box) (m : Motivo) :
    (volume_para_box itens b.altura = .error m →
      escolher_box_por_altura (l1 ++ b :: l2) itens =
        escolher_box_por_altura (l1 ++ l2) itens) ∧
    (escolher_box_por_altura boxes itens = .error motivoFalha ↔
      ¬ ∃ box v, box ∈ boxes ∧ Elegivel itens box v) := by
  constructor
  · intro hErr
    have hnone : candidatoDe itens b = none := by
      unfold candidatoDe; rw [hErr]
    unfold escolher_box_por_altura
    rw [List.filterMap_append, List.filterMap_append,
      List.filterMap_cons_none hnone]
  · constructor
    · intro hfail ⟨box, v, hmem, hel⟩
      obtain ⟨a, d, hc⟩ := candidatoDe_of_elegivel hel
      unfold escolher_box_por_altura at hfail
      cases hm : melhorCandidato (boxes.filterMap (candidatoDe itens)) with
      | some c => rw [hm] at hfail; exact absurd hfail (by simp)
      | none =>
        have hnil := (melhorCandidato_eq_none_iff _).mp hm
        have : candidatoDe itens box = none :=
          List.filterMap_eq_nil_iff.mp hnil box hmem
        rw [hc] at this
        exact absurd this (by simp)
    · intro hno
      have hnil : boxes.filterMap (candidatoDe itens) = [] := by
        apply List.filterMap_eq_nil_iff.mpr
        intro box hmem
        refine candidatoDe_eq_none_iff.mpr (fun v hel => hno ⟨box, v, hmem, hel⟩)
      unfold escolher_box_por_altura
      rw [hnil]
      rfl

/-- C9: on the empty item list the estimator yields total volume 0,
peak 0 and an empty breakdown for every box; every box of non-negative
capacity is eligible; and the selector deterministically picks a
smallest-capacity box, the first such box in enumeration order. -/
theorem lista_vazia_menor_box (boxes : List Box) (hne : boxes ≠ [])
    (hcap : ∀ b ∈ boxes, 0 ≤ b.metrosCubicos) :
    (∀ b ∈ boxes, volume_para_box [] b.altura = .ok (0, 0, []) ∧ Elegivel [] b 0) ∧
    ∃ box l1 l2,
      escolher_box_por_altura boxes [] = .ok (box, 0, 0, []) ∧
      boxes = l1 ++ box :: l2 ∧
      (∀ b ∈ boxes, box.metrosCubicos ≤ b.metrosCubicos) ∧
      (∀ b ∈ l1, box.metrosCubicos < b.metrosCubicos) := by
  have hvazio : ∀ alturaBox : ℚ, volume_para_box [] alturaBox = .ok (0, 0, []) := by
    intro alturaBox
    rw [volume_para_box_eq]
    simp [primeiraInviabilidade]
  have helig : ∀ b ∈ boxes, volume_para_box [] b.altura = .ok (0, 0, []) ∧
      Elegivel [] b 0 := by
    intro b hb
    exact ⟨hvazio b.altura, ⟨0, [], hvazio b.altura⟩, hcap b hb⟩
  refine ⟨helig, ?_⟩
  obtain ⟨b0, resto, rfl⟩ : ∃ b0 resto, boxes = b0 :: resto := by
    cases boxes with
    | nil => exact absurd rfl hne
    | cons b0 resto => exact ⟨b0, resto, rfl⟩
  obtain ⟨box, vol, altUso, detalhes, l1, l2, h1, h2, h3, h4, h5, _h6, h7⟩ :=
    escolher_spec (b0 :: resto) []
      ⟨b0, 0, List.mem_cons_self _ _, (helig b0 (List.mem_cons_self _ _)).2⟩
  have hbox : box ∈ b0 :: resto := by rw [h2]; exact List.mem_append_right _ (List.mem_cons_self _ _)
  have hzero : vol = 0 ∧ altUso = 0 ∧ detalhes = [] := by
    have := h4
    rw [hvazio box.altura] at this
    simp only [Except.ok.injEq, Prod.mk.injEq] at this
    exact ⟨this.1.symm, this.2.1.symm, this.2.2.symm⟩
  obtain ⟨rfl, rfl, rfl⟩ := hzero
  refine ⟨box, l1, l2, h1, h2, ?_, ?_⟩
  · intro b hb
    exact h5 b hb 0 (helig b hb).2
  · intro b hb
    have hbmem : b ∈ b0 :: resto := by
      rw [h2]; exact List.mem_append_left _ hb
    rcases h7 b hb 0 (helig b hbmem).2 with hlt | ⟨_, hbad⟩
    · exact hlt
    · exact absurd hbad (lt_irrefl 0)

/-! ### Normalizer claims -/

/-- The normalized output's names always follow the order of
`itens_ui` (the name-sorted catalogue enumeration). -/
theorem processar_nomes_sublist (form : Form) :
    ((processarRequisicao form).map (fun it => it.nome)).Sublist
      (itens_ui.map (fun it => it.nome)) := by
  rw [processarRequisicao_eq]
  refine map_filterMap_sublist _ _ _ ?_ itens_ui
  intro it item hsome
  by_cases hq : max 0 ((formGet form ("qty_" ++ it.slug)).getD 0) ≤ 0
  · rw [if_pos hq] at hsome; cases hsome
  · rw [if_neg hq] at hsome
    cases hsome
    rfl

theorem processar_nomes_nodup (form : Form) :
    ((processarRequisicao form).map (fun it => it.nome)).Nodup :=
  (processar_nomes_sublist form).nodup itens_ui_nomes_nodup

/-- C7 counterexample: requesting one sofa and one geladeira yields the
normalized names `[geladeira, sofa]`, while the catalogue mapping's own
iteration order lists sofa before geladeira; the output is not ordered
by the catalogue's iteration order. -/
theorem normalizacao_ordem_contraexemplo :
    (processarRequisicao [("qty_sofa", some 1), ("qty_geladeira", some 1)]).map
        (fun it => it.nome) = ["geladeira", "sofa"] ∧
    (catalogo.map (fun p => p.1)).take 2 = ["sofa", "geladeira"] ∧
    ¬ ((processarRequisicao [("qty_sofa", some 1), ("qty_geladeira", some 1)]).map
        (fun it => it.nome)).Sublist (catalogo.map (fun p => p.1)) := by
  have h1 : (processarRequisicao [("qty_sofa", some 1), ("qty_geladeira", some 1)]).map
      (fun it => it.nome) = ["geladeira", "sofa"] := by with_unfolding_all rfl
  refine ⟨h1, rfl, fun hsub => ?_⟩
  rw [h1] at hsub
  exact absurd hsub (by decide)

/-- C7 (amended): for every request the normalized list is ordered by
the application's catalogue enumeration — the catalogue sorted by item
name (`itens_ui`) — and the result depends only on the form's field
lookup, not on the insertion order of the request's entries. -/
theorem normalizacao_ordem_ui (form : Form) :
    ((processarRequisicao form).map (fun it => it.nome)).Sublist
      (itens_ui.map (fun it => it.nome)) ∧
    (∀ form' : Form, (∀ campo, formGet form campo = formGet form' campo) →
      processarRequisicao form = processarRequisicao form') := by
  refine ⟨processar_nomes_sublist form, ?_⟩
  intro form' hpt
  unfold processarRequisicao lerQuantidades
  congr 1
  exact List.map_congr_left (fun it _ => by rw [hpt])

/-- C8: every surviving normalized item has positive quantity; a UI
entry whose field parses to a positive `n` yields exactly one normalized
item (its record, counted once by name); a non-parsing field (treated as
0) or a non-positive parse (clamped to 0) yields no item of that name;
and an entry under a key that is no `qty_<slug>` field of the catalogue
is ignored entirely. -/
theorem normalizacao_entradas (form : Form) :
    (∀ item ∈ processarRequisicao form, 0 < item.qtd) ∧
    (∀ it ∈ itens_ui, ∀ n : ℤ, formGet form ("qty_" ++ it.slug) = some n → 0 < n →
      itemDe it n ∈ processarRequisicao form ∧
      ((processarRequisicao form).map (fun x => x.nome)).count it.nome = 1) ∧
    (∀ it ∈ itens_ui, formGet form ("qty_" ++ it.slug) = none →
      it.nome ∉ (processarRequisicao form).map (fun x => x.nome)) ∧
    (∀ it ∈ itens_ui, ∀ n : ℤ, formGet form ("qty_" ++ it.slug) = some n → n ≤ 0 →
      it.nome ∉ (processarRequisicao form).map (fun x => x.nome)) ∧
    (∀ campo v, (∀ it ∈ itens_ui, campo ≠ "qty_" ++ it.slug) →
      processarRequisicao ((campo, v) :: form) = processarRequisicao form) := by
  refine ⟨?_, ?_, ?_, ?_, ?_⟩
  · intro item hmem
    rw [processarRequisicao_eq] at hmem
    obtain ⟨it, hit, hF⟩ := List.mem_filterMap.mp hmem
    by_cases hq : max 0 ((formGet form ("qty_" ++ it.slug)).getD 0) ≤ 0
    · rw [if_pos hq] at hF; cases hF
    · rw [if_neg hq] at hF
      cases hF
      have h0 : 0 < max 0 ((formGet form ("qty_" ++ it.slug)).getD 0) := not_le.mp hq
      show 0 < (max 0 ((formGet form ("qty_" ++ it.slug)).getD 0)).toNat
      omega
  · intro it hit n hn hpos
    have hq : max 0 ((formGet form ("qty_" ++ it.slug)).getD 0) = n := by
      rw [hn]
      exact max_eq_right (le_of_lt hpos)
    have hmem : itemDe it n ∈ processarRequisicao form := by
      rw [processarRequisicao_eq]
      refine List.mem_filterMap.mpr ⟨it, hit, ?_⟩
      rw [hq, if_neg (not_le.mpr hpos)]
    refine ⟨hmem, ?_⟩
    exact List.count_eq_one_of_mem (processar_nomes_nodup form)
      (List.mem_map.mpr ⟨itemDe it n, hmem, rfl⟩)
  · intro it hit hn hmem
    obtain ⟨item, hitem, hnome⟩ := List.mem_map.mp hmem
    rw [processarRequisicao_eq] at hitem
    obtain ⟨it2, hit2, hF⟩ := List.mem_filterMap.mp hitem
    by_cases hq : max 0 ((formGet form ("qty_" ++ it2.slug)).getD 0) ≤ 0
    · rw [if_pos hq] at hF; cases hF
    · rw [if_neg hq] at hF
      cases hF
      have heq : it2 = it :=
        List.inj_on_of_nodup_map itens_ui_nomes_nodup hit2 hit hnome
      subst heq
      rw [hn] at hq
      simp at hq
  · intro it hit n hn hneg hmem
    obtain ⟨item, hitem, hnome⟩ := List.mem_map.mp hmem
    rw [processarRequisicao_eq] at hitem
    obtain ⟨it2, hit2, hF⟩ := List.mem_filterMap.mp hitem
    by_cases hq : max 0 ((formGet form ("qty_" ++ it2.slug)).getD 0) ≤ 0
    · rw [if_pos hq] at hF; cases hF
    · rw [if_neg hq] at hF
      cases hF
      have heq : it2 = it :=
        List.inj_on_of_nodup_map itens_ui_nomes_nodup hit2 hit hnome
      subst heq
      rw [hn] at hq
      exact hq (by simp [max_eq_left hneg])
  · intro campo v hk
    rw [processarRequisicao_eq, processarRequisicao_eq]
    refine List.filterMap_congr ?_
    intro it hit
    have hfind : List.find? (fun p => p.1 == "qty_" ++ it.slug) ((campo, v) :: form) =
        List.find? (fun p => p.1 == "qty_" ++ it.slug) form :=
      List.find?_cons_of_neg _ (by simp only [beq_iff_eq]; exact hk it hit)
    have hfg : formGet ((campo, v) :: form) ("qty_" ++ it.slug) =
        formGet form ("qty_" ++ it.slug) := by
      unfold formGet
      rw [hfind]
    rw [hfg]

/-! ### Concrete instantiations of the claim theorems -/

theorem estimador_item_empilhavel_aplicacao :
    (camadasPorPilha 1 (⟨"caixa pequena", 10, 1/10, true, 6, 2/5⟩ : Item) =
      min ⌊(1 : ℚ) / (2/5)⌋ ((6 : ℕ) : ℤ)) ∧
    (camadasPorPilha 1 (⟨"caixa pequena", 10, 1/10, true, 6, 2/5⟩ : Item) < 1 →
      volume_para_box [⟨"caixa pequena", 10, 1/10, true, 6, 2/5⟩] 1 (3/20) =
        .error ⟨"caixa pequena", 2/5, 1⟩) ∧
    (1 ≤ camadasPorPilha 1 (⟨"caixa pequena", 10, 1/10, true, 6, 2/5⟩ : Item) →
      ∀ T A D, volume_para_box [] 1 (3/20) = .ok (T, A, D) →
        volume_para_box [⟨"caixa pequena", 10, 1/10, true, 6, 2/5⟩] 1 (3/20) =
          .ok ((⌈((10 : ℕ) : ℚ) /
                  ((camadasPorPilha 1 (⟨"caixa pequena", 10, 1/10, true, 6, 2/5⟩ : Item) : ℤ) : ℚ)⌉ : ℚ) *
                (1/10) * (1 + 3/20) + T,
            max (((min (camadasPorPilha 1 (⟨"caixa pequena", 10, 1/10, true, 6, 2/5⟩ : Item))
                ((10 : ℕ) : ℤ)) : ℚ) * (2/5)) A,
            detalheDe 1 (⟨"caixa pequena", 10, 1/10, true, 6, 2/5⟩ : Item) :: D)) :=
  estimador_item_empilhavel ⟨"caixa pequena", 10, 1/10, true, 6, 2/5⟩ [] 1 (3/20)
    rfl (by decide) (by show (0 : ℚ) < 2/5; norm_num) (by decide)

theorem estimador_item_nao_empilhavel_aplicacao :
    (∀ T A D, volume_para_box [] 2 (3/20) = .ok (T, A, D) →
      volume_para_box [⟨"sofa", 1, 5/2, false, 1, 1⟩] 2 (3/20) =
        .ok (((1 : ℕ) : ℚ) * (5/2) * (1 + 3/20) + T, max 1 A,
          .naoEmpilha "sofa" 1 (((1 : ℕ) : ℚ) * (5/2)) 1 :: D)) ∧
    (volumeContribuicao 2 (⟨"sofa", 1, 5/2, false, 1, 1⟩ : Item) = ((1 : ℕ) : ℚ) * (5/2) ∧
      volumeContribuicao (1/2) (⟨"sofa", 1, 5/2, false, 1, 1⟩ : Item) = ((1 : ℕ) : ℚ) * (5/2)) ∧
    (alturaContribuicao 2 (⟨"sofa", 1, 5/2, false, 1, 1⟩ : Item) = 1) ∧
    (∀ T A D, volume_para_box [⟨"sofa", 1, 5/2, false, 1, 1⟩] 2 (3/20) = .ok (T, A, D) →
      A = ([(⟨"sofa", 1, 5/2, false, 1, 1⟩ : Item)].map (alturaContribuicao 2)).foldl max 0) :=
  estimador_item_nao_empilhavel ⟨"sofa", 1, 5/2, false, 1, 1⟩ []
    [⟨"sofa", 1, 5/2, false, 1, 1⟩] 2 (1/2) (3/20) rfl

theorem estimador_total_linear_na_folga_aplicacao :
    (∃ A D, volume_para_box [⟨"caixa pequena", 10, 1/10, true, 6, 2/5⟩] 1 (1/10) =
        .ok (([(⟨"caixa pequena", 10, 1/10, true, 6, 2/5⟩ : Item)].map
            (volumeContribuicao 1)).sum * (1 + 1/10), A, D)) ∧
    (∃ A D, volume_para_box [⟨"caixa pequena", 10, 1/10, true, 6, 2/5⟩] 1 =
        .ok (([(⟨"caixa pequena", 10, 1/10, true, 6, 2/5⟩ : Item)].map
            (volumeContribuicao 1)).sum * (1 + 3/20), A, D)) :=
  estimador_total_linear_na_folga [⟨"caixa pequena", 10, 1/10, true, 6, 2/5⟩] 1 (1/10)
    (by
      intro it hit _
      rcases List.mem_singleton.mp hit with rfl
      have h2 : (⌊(1 : ℚ) / (2/5)⌋ : ℤ) = 2 := by norm_num
      show (1 : ℤ) ≤ min ⌊(1 : ℚ) / (2/5)⌋ ((6 : ℕ) : ℤ)
      rw [h2]
      decide)

theorem estimador_sem_empilhaveis_aplicacao :
    volume_para_box [⟨"geladeira", 1, 6/5, false, 1, 9/5⟩] (1/2) (3/20) =
      .ok (([(⟨"geladeira", 1, 6/5, false, 1, 9/5⟩ : Item)].map
          (fun it => (it.qtd : ℚ) * it.m3)).sum * (1 + 3/20),
        ([(⟨"geladeira", 1, 6/5, false, 1, 9/5⟩ : Item)].map (fun it => it.altura)).foldl max 0,
        [(⟨"geladeira", 1, 6/5, false, 1, 9/5⟩ : Item)].map (fun it =>
          .naoEmpilha it.nome it.qtd ((it.qtd : ℚ) * it.m3) it.altura)) :=
  estimador_sem_empilhaveis [⟨"geladeira", 1, 6/5, false, 1, 9/5⟩] (1/2) (3/20)
    (by intro it hit; rcases List.mem_singleton.mp hit with rfl; rfl)

theorem selecao_minimo_capacidade_volume_ordem_aplicacao :
    ∃ box vol altUso detalhes l1 l2,
      escolher_box_por_altura [⟨"B2", 2, 4⟩, ⟨"B1", 2, 3⟩]
          [⟨"sofa", 1, 5/2, false, 1, 1⟩] = .ok (box, vol, altUso, detalhes) ∧
      [(⟨"B2", 2, 4⟩ : Box), ⟨"B1", 2, 3⟩] = l1 ++ box :: l2 ∧
      Elegivel [⟨"sofa", 1, 5/2, false, 1, 1⟩] box vol ∧
      (∀ b ∈ [(⟨"B2", 2, 4⟩ : Box), ⟨"B1", 2, 3⟩], ∀ v,
        Elegivel [⟨"sofa", 1, 5/2, false, 1, 1⟩] b v →
          box.metrosCubicos ≤ b.metrosCubicos) ∧
      (∀ b ∈ [(⟨"B2", 2, 4⟩ : Box), ⟨"B1", 2, 3⟩], ∀ v,
        Elegivel [⟨"sofa", 1, 5/2, false, 1, 1⟩] b v →
          b.metrosCubicos = box.metrosCubicos → vol ≤ v) ∧
      (∀ b ∈ l1, ∀ v, Elegivel [⟨"sofa", 1, 5/2, false, 1, 1⟩] b v →
        box.metrosCubicos < b.metrosCubicos ∨
          (box.metrosCubicos = b.metrosCubicos ∧ vol < v)) :=
  selecao_minimo_capacidade_volume_ordem [⟨"B2", 2, 4⟩, ⟨"B1", 2, 3⟩]
    [⟨"sofa", 1, 5/2, false, 1, 1⟩]
    ⟨⟨"B1", 2, 3⟩, 23/8, List.mem_cons_of_mem _ (List.mem_cons_self _ _),
      ⟨⟨1, [.naoEmpilha "sofa" 1 (((1 : ℕ) : ℚ) * (5/2)) 1], by with_unfolding_all rfl⟩,
        by show (23/8 : ℚ) ≤ 3; norm_num⟩⟩

theorem selecao_capacidade_cobre_volume_aplicacao :
    volume_para_box [⟨"sofa", 1, 5/2, false, 1, 1⟩] 2 =
      .ok (23/8, 1, [.naoEmpilha "sofa" 1 (5/2) 1]) ∧ (23/8 : ℚ) ≤ 3 :=
  selecao_capacidade_cobre_volume [⟨"B1", 2, 3⟩] [⟨"sofa", 1, 5/2, false, 1, 1⟩]
    ⟨"B1", 2, 3⟩ (23/8) 1 [.naoEmpilha "sofa" 1 (5/2) 1] (by with_unfolding_all rfl)

theorem selecao_pula_inviaveis_falha_fixa_aplicacao :
    escolher_box_por_altura [⟨"B0", 1/2, 10⟩, ⟨"B1", 2, 3⟩]
        [⟨"caixa grande", 1, 1/2, true, 4, 3/5⟩] =
      escolher_box_por_altura [⟨"B1", 2, 3⟩] [⟨"caixa grande", 1, 1/2, true, 4, 3/5⟩] ∧
    (escolher_box_por_altura [⟨"B0", 1/2, 10⟩, ⟨"B1", 2, 3⟩]
        [⟨"caixa grande", 1, 1/2, true, 4, 3/5⟩] = .error motivoFalha ↔
      ¬ ∃ box v, box ∈ [(⟨"B0", 1/2, 10⟩ : Box), ⟨"B1", 2, 3⟩] ∧
        Elegivel [⟨"caixa grande", 1, 1/2, true, 4, 3/5⟩] box v) :=
  ⟨(selecao_pula_inviaveis_falha_fixa [⟨"caixa grande", 1, 1/2, true, 4, 3/5⟩]
      [⟨"B0", 1/2, 10⟩, ⟨"B1", 2, 3⟩] [] [⟨"B1", 2, 3⟩] ⟨"B0", 1/2, 10⟩
      ⟨"caixa grande", 3/5, 1/2⟩).1 (by with_unfolding_all rfl),
    (selecao_pula_inviaveis_falha_fixa [⟨"caixa grande", 1, 1/2, true, 4, 3/5⟩]
      [⟨"B0", 1/2, 10⟩, ⟨"B1", 2, 3⟩] [] [⟨"B1", 2, 3⟩] ⟨"B0", 1/2, 10⟩
      ⟨"caixa grande", 3/5, 1/2⟩).2⟩

theorem lista_vazia_menor_box_aplicacao :
    (∀ b ∈ [(⟨"B2", 2, 4⟩ : Box), ⟨"B1", 2, 3⟩],
      volume_para_box [] b.altura = .ok (0, 0, []) ∧ Elegivel [] b 0) ∧
    ∃ box l1 l2,
      escolher_box_por_altura [⟨"B2", 2, 4⟩, ⟨"B1", 2, 3⟩] [] = .ok (box, 0, 0, []) ∧
      [(⟨"B2", 2, 4⟩ : Box), ⟨"B1", 2, 3⟩] = l1 ++ box :: l2 ∧
      (∀ b ∈ [(⟨"B2", 2, 4⟩ : Box), ⟨"B1", 2, 3⟩], box.metrosCubicos ≤ b.metrosCubicos) ∧
      (∀ b ∈ l1, box.metrosCubicos < b.metrosCubicos) :=
  lista_vazia_menor_box [⟨"B2", 2, 4⟩, ⟨"B1", 2, 3⟩] (by simp)
    (by
      intro b hb
      rcases List.mem_cons.mp hb with rfl | hb2
      · show (0 : ℚ) ≤ 4; norm_num
      · rcases List.mem_cons.mp hb2 with rfl | hb3
        · show (0 : ℚ) ≤ 3; norm_num
        · cases hb3)

theorem normalizacao_ordem_ui_aplicacao :
    ((processarRequisicao [("qty_sofa", some 1)]).map (fun it => it.nome)).Sublist
      (itens_ui.map (fun it => it.nome)) ∧
    processarRequisicao [("qty_sofa", some 1)] =
      processarRequisicao [("qty_sofa", some 1)] :=
  ⟨(normalizacao_ordem_ui [("qty_sofa", some 1)]).1,
    (normalizacao_ordem_ui [("qty_sofa", some 1)]).2 [("qty_sofa", some 1)]
      (fun _ => rfl)⟩

theorem normalizacao_entradas_aplicacao :
    (itemDe ⟨"sofa", "sofa", 5/2, false, 1, 1⟩ 2 ∈
        processarRequisicao
          [("qty_sofa", some 2), ("qty_geladeira", some (-3)), ("qty_tv", none)] ∧
      ((processarRequisicao
          [("qty_sofa", some 2), ("qty_geladeira", some (-3)), ("qty_tv", none)]).map
        (fun x => x.nome)).count "sofa" = 1) ∧
    "tv" ∉ (processarRequisicao
        [("qty_sofa", some 2), ("qty_geladeira", some (-3)), ("qty_tv", none)]).map
      (fun x => x.nome) ∧
    "geladeira" ∉ (processarRequisicao
        [("qty_sofa", some 2), ("qty_geladeira", some (-3)), ("qty_tv", none)]).map
      (fun x => x.nome) ∧
    processarRequisicao (("unrelated", some 7) ::
        [("qty_sofa", some 2), ("qty_geladeira", some (-3)), ("qty_tv", none)]) =
      processarRequisicao
        [("qty_sofa", some 2), ("qty_geladeira", some (-3)), ("qty_tv", none)] :=
  ⟨(normalizacao_entradas _).2.1 ⟨"sofa", "sofa", 5/2, false, 1, 1⟩
      (by with_unfolding_all decide) 2 (by with_unfolding_all rfl) (by decide),
    (normalizacao_entradas _).2.2.1 ⟨"tv", "tv", 41/100, false, 1, 7/10⟩
      (by with_unfolding_all decide) (by with_unfolding_all rfl),
    (normalizacao_entradas _).2.2.2.1 ⟨"geladeira", "geladeira", 6/5, false, 1, 9/5⟩
      (by with_unfolding_all decide) (-3) (by with_unfolding_all rfl) (by decide),
    (normalizacao_entradas _).2.2.2.2 "unrelated" (some 7)
      (by with_unfolding_all decide)⟩

end Ylw
